import Mathlib

/-!
Verification of the htmlstr classifier (src/htmlstr/core.py).

The classifier consumes a parsed DOM tree through a minimal node interface
(tag name or text marker, attribute lookup, ordered children, trimmed-text
extraction) and produces a flat sequence of typed elements, threading a
mutable integer id counter (Parser.id / Parser.fetch_advance_id).

The DOM is embedded as an inductive tree.  Attribute values are
`Option String` because the underlying engine reports a present-but-valueless
attribute as a key mapped to None; an absent key is absence in the
association list.  Python dict access `attributes.get(k, None)` is embedded
as association-list lookup followed by Option.join, and truthiness of an
optional string (`if not href`) is the predicate "none or empty string".

`Parser.parse_children` iterates the direct children of a node (a Python
for-loop with an if/elif dispatch chain); it is embedded as one recursive
function `parseChildren` over the list of children, whose per-node branches
mirror the elif chain in source order, and whose id counter is threaded
explicitly (state `i : Nat` in, state out in the second component).
-/

/-- DOM node supplied by the external HTML engine: either a text node
(tag reported as the marker) or an element with a tag, an attribute map
and ordered children.  An attribute value of none models a
present-but-valueless attribute. -/
inductive Node where
  | text (s : String)
  | elem (tag : String) (attrs : List (String × Option String)) (children : List Node)
deriving Repr

/-- Direct children of a node, as iterated by root.iter(include_text=True). -/
def Node.childrenList : Node → List Node
  | .text _ => []
  | .elem _ _ kids => kids

mutual

/-- The stripped text chunks of a subtree: node.text(strip=True) concatenates
every descendant text node's content, each stripped. -/
def Node.textChunks : Node → List String
  | .text s => [s.trim]
  | .elem _ _ kids => textChunksList kids

/-- Text chunks of a node list, in order. -/
def textChunksList : List Node → List String
  | [] => []
  | n :: rest => n.textChunks ++ textChunksList rest

end

/-- node.text(strip=True): the concatenation of the stripped text chunks. -/
def Node.stripText (n : Node) : String :=
  String.join n.textChunks

/-- The element model of core.py: a closed tagged union (the Element
Union and the dataclasses Anchor .. Summary). -/
inductive Element where
  | text (content : String)
  | anchor (href : String) (inner : List Element)
  | image (src : String) (alt : Option String)
  | button (id : Nat) (inner : List Element)
  | heading (level : Nat) (inner : List Element)
  | paragraph (inner : List Element)
  | textInput (id : Nat) (placeholder : Option String)
  | urlInput (id : Nat) (placeholder : Option String)
  | checkboxInput (id : Nat) (checked : Bool)
  | radioInput (id : Nat) (checked : Bool)
  | label (inner : List Element)
  | select (inner : List Element) (multiple : Bool)
  | option (text : String)
  | details (inner : List Element)
  | summary (inner : List Element)
deriving Repr

/-- Python truthiness test `not v` for an optional attribute string:
true when the value is missing-or-None or the empty string. -/
def pyFalsy : Option String → Bool
  | none => true
  | some s => s = ("")

/-- The boolean-attribute coercion appearing inline three times in
parse_children (checked on checkbox at lines 219-227, checked on radio at
lines 236-244, multiple on select at lines 256-266):
if key in attributes: attributes[key] == "true" or not attributes[key],
else False. -/
def boolAttr (attrs : List (String × Option String)) (k : String) : Bool :=
  match attrs.lookup k with
  | none => false
  | some v => v = some ("true") || pyFalsy v

/-- The heading recognizer of lines 187-191 restricted to ASCII digits:
len(tag) == 2 and tag.startswith("h") and tag[-1].isdigit().
The last character of a two-character tag is its second character.
Python's str.isdigit also accepts non-ASCII Unicode digit characters;
the full recognizer is pyIsHeadingTag below, of which this is the
restriction (exact on ASCII tags, see pyIsHeadingTag_ascii); theorems
quantifying over tags where the difference matters carry an ASCII
hypothesis or use the full recognizer. -/
def isHeadingTag (tag : String) : Bool :=
  tag.length == 2 && tag.data.head? == some 'h' &&
    (match tag.data.getLast? with
     | some c => c.isDigit
     | none => false)

/-- int(tag[1:]) for a heading tag whose trailing character is an ASCII
digit: the numeric value of that digit.  For non-ASCII characters accepted
by str.isdigit, int() either parses the decimal value or raises ValueError
(Numeric_Type Digit without Decimal); that fallible behavior is modelled
by pyIntDigit and headingBranchRaises below. -/
def headingLevel (tag : String) : Nat :=
  match tag.data.getLast? with
  | some c => c.toNat - Char.toNat '0'
  | none => 0

/-- attributes.get("type", "text") at line 206: the default only applies
when the key is absent; a present-but-valueless type attribute stays None. -/
def inputType (attrs : List (String × Option String)) : Option String :=
  match attrs.lookup ("type") with
  | none => some ("text")
  | some v => v

/-- attributes.get(k, None): the value of a present key (itself possibly
None for a valueless attribute), or None when the key is absent. -/
def getAttr (attrs : List (String × Option String)) (k : String) : Option String :=
  (attrs.lookup k).join

/-- Parser.parse_children (lines 144-301): iterate the direct children,
dispatch on each child's tag by the elif chain, appending the produced
elements in order.  The instance counter self.id is threaded explicitly:
the input counter is i and the output counter is the second component.
fetch_advance_id() is "use the current counter value, thread counter+1". -/
def parseChildren : Nat → List Node → List Element × Nat
  | i, [] => ([], i)
  | i, .text s :: rest =>
    -- not node.tag: a text node; emit Text when the stripped text is non-empty
    let t := s.trim
    let r := parseChildren i rest
    ((if t = ("") then [] else [Element.text t]) ++ r.1, r.2)
  | i, .elem tag attrs kids :: rest =>
    if tag = ("") ∨ tag = ("-text") then
      -- tag-carrying node that still matches the text-marker test
      let t := Node.stripText (.elem tag attrs kids)
      let r := parseChildren i rest
      ((if t = ("") then [] else [Element.text t]) ++ r.1, r.2)
    else if tag = ("a") then
      match getAttr attrs ("href") with
      | none => parseChildren i rest
      | some href =>
        if href = ("") then parseChildren i rest
        else
          let c := parseChildren i kids
          if c.1.isEmpty then parseChildren c.2 rest
          else
            let r := parseChildren c.2 rest
            (Element.anchor href c.1 :: r.1, r.2)
    else if tag = ("img") then
      match getAttr attrs ("src") with
      | none => parseChildren i rest
      | some src =>
        if src = ("") then parseChildren i rest
        else
          let r := parseChildren i rest
          (Element.image src (getAttr attrs ("alt")) :: r.1, r.2)
    else if tag = ("button") then
      let c := parseChildren i kids
      if c.1.isEmpty then parseChildren c.2 rest
      else
        -- fetch_advance_id() is evaluated after the children were parsed
        let r := parseChildren (c.2 + 1) rest
        (Element.button c.2 c.1 :: r.1, r.2)
    else if isHeadingTag tag then
      let c := parseChildren i kids
      if c.1.isEmpty then parseChildren c.2 rest
      else
        let r := parseChildren c.2 rest
        (Element.heading (headingLevel tag) c.1 :: r.1, r.2)
    else if tag = ("p") then
      let c := parseChildren i kids
      if c.1.isEmpty then parseChildren c.2 rest
      else
        let r := parseChildren c.2 rest
        (Element.paragraph c.1 :: r.1, r.2)
    else if tag = ("input") then
      if inputType attrs = some ("text") then
        let r := parseChildren (i + 1) rest
        (Element.textInput i (getAttr attrs ("placeholder")) :: r.1, r.2)
      else if inputType attrs = some ("url") then
        let r := parseChildren (i + 1) rest
        (Element.urlInput i (getAttr attrs ("placeholder")) :: r.1, r.2)
      else if inputType attrs = some ("checkbox") then
        let r := parseChildren (i + 1) rest
        (Element.checkboxInput i (boolAttr attrs ("checked")) :: r.1, r.2)
      else if inputType attrs = some ("radio") then
        let r := parseChildren (i + 1) rest
        (Element.radioInput i (boolAttr attrs ("checked")) :: r.1, r.2)
      else parseChildren i rest
    else if tag = ("select") then
      let c := parseChildren i kids
      if c.1.isEmpty then parseChildren c.2 rest
      else
        let r := parseChildren c.2 rest
        (Element.select c.1 (boolAttr attrs ("multiple")) :: r.1, r.2)
    else if tag = ("option") then
      let t := Node.stripText (.elem tag attrs kids)
      let r := parseChildren i rest
      ((if t = ("") then [] else [Element.option t]) ++ r.1, r.2)
    else if tag = ("label") then
      let c := parseChildren i kids
      if c.1.isEmpty then parseChildren c.2 rest
      else
        let r := parseChildren c.2 rest
        (Element.label c.1 :: r.1, r.2)
    else if tag = ("details") then
      let c := parseChildren i kids
      if c.1.isEmpty then parseChildren c.2 rest
      else
        let r := parseChildren c.2 rest
        (Element.details c.1 :: r.1, r.2)
    else if tag = ("summary") then
      let c := parseChildren i kids
      if c.1.isEmpty then parseChildren c.2 rest
      else
        let r := parseChildren c.2 rest
        (Element.summary c.1 :: r.1, r.2)
    else
      -- treat as fragments: splice the classified children at this position
      let c := parseChildren i kids
      let r := parseChildren c.2 rest
      (c.1 ++ r.1, r.2)

/-- The Parser class: its only state is the id counter (slot "id"),
initialized to 0 by the constructor. -/
structure Parser where
  id : Nat
deriving Repr

/-- Parser(): the constructor sets self.id = 0. -/
def Parser.mkNew : Parser := ⟨0⟩

/-- Parser.parse (lines 130-142).  Locating the body in the document is the
external engine's job (parser.body); the classifier only distinguishes
"no body" (return []) from "body node" (classify its children).  The
returned pair carries the instance state after the call. -/
def Parser.parse (p : Parser) (body : Option Node) : List Element × Parser :=
  match body with
  | none => ([], p)
  | some b =>
    let r := parseChildren p.id b.childrenList
    (r.1, ⟨r.2⟩)

mutual

/-- The ids carried by an element tree, listed in the order the counter
allocated them: a Button's own id was fetched only after its children were
parsed, so it comes after its subtree's ids; the four input controls carry
their id and have no element children; all other variants only contribute
the ids inside their inner list. -/
def allocIds : Element → List Nat
  | .button i inner => allocIdsList inner ++ [i]
  | .textInput i _ => [i]
  | .urlInput i _ => [i]
  | .checkboxInput i _ => [i]
  | .radioInput i _ => [i]
  | .anchor _ inner => allocIdsList inner
  | .heading _ inner => allocIdsList inner
  | .paragraph inner => allocIdsList inner
  | .label inner => allocIdsList inner
  | .select inner _ => allocIdsList inner
  | .details inner => allocIdsList inner
  | .summary inner => allocIdsList inner
  | .text _ => []
  | .image _ _ => []
  | .option _ => []

/-- Allocation-ordered ids of a sibling sequence. -/
def allocIdsList : List Element → List Nat
  | [] => []
  | e :: es => allocIds e ++ allocIdsList es

end

mutual

/-- The ids carried by an element tree in output pre-order: an element's own
id before the ids inside its inner list.  Output pre-order matches the
document pre-order of the tags the elements were built from. -/
def preorderIds : Element → List Nat
  | .button i inner => i :: preorderIdsList inner
  | .textInput i _ => [i]
  | .urlInput i _ => [i]
  | .checkboxInput i _ => [i]
  | .radioInput i _ => [i]
  | .anchor _ inner => preorderIdsList inner
  | .heading _ inner => preorderIdsList inner
  | .paragraph inner => preorderIdsList inner
  | .label inner => preorderIdsList inner
  | .select inner _ => preorderIdsList inner
  | .details inner => preorderIdsList inner
  | .summary inner => preorderIdsList inner
  | .text _ => []
  | .image _ _ => []
  | .option _ => []

/-- Pre-order ids of a sibling sequence. -/
def preorderIdsList : List Element → List Nat
  | [] => []
  | e :: es => preorderIds e ++ preorderIdsList es

end

mutual

/-- Content well-formedness of one emitted element: every variant carrying
an inner list has a non-empty inner list (recursively well-formed), and
Text and Option carry non-empty extracted text. -/
def Element.wf : Element → Bool
  | .text c => c ≠ ("")
  | .anchor _ inner => !inner.isEmpty && wfList inner
  | .image _ _ => true
  | .button _ inner => !inner.isEmpty && wfList inner
  | .heading _ inner => !inner.isEmpty && wfList inner
  | .paragraph inner => !inner.isEmpty && wfList inner
  | .textInput _ _ => true
  | .urlInput _ _ => true
  | .checkboxInput _ _ => true
  | .radioInput _ _ => true
  | .label inner => !inner.isEmpty && wfList inner
  | .select inner _ => !inner.isEmpty && wfList inner
  | .option t => t ≠ ("")
  | .details inner => !inner.isEmpty && wfList inner
  | .summary inner => !inner.isEmpty && wfList inner

/-- Well-formedness of every element of a sequence. -/
def wfList : List Element → Bool
  | [] => true
  | e :: es => e.wf && wfList es

end

theorem allocIdsList_append (xs ys : List Element) :
    allocIdsList (xs ++ ys) = allocIdsList xs ++ allocIdsList ys := by
  induction xs with
  | nil => simp [allocIdsList]
  | cons x xs ih => simp [allocIdsList, ih]

theorem parseChildren_allocIds : ∀ (i : Nat) (ns : List Node),
    ∃ m, (parseChildren i ns).2 = i + m ∧ allocIdsList (parseChildren i ns).1 = List.range' i m := by
  intro i ns
  induction i, ns using parseChildren.induct
  case case1 =>
    rename_i i
    exact ⟨0, by simp [parseChildren], by simp [parseChildren, allocIdsList]⟩
  case case2 =>
    rename_i i s rest ihR
    obtain ⟨mr, hr2, hrIds⟩ := ihR
    refine ⟨mr, ?_, ?_⟩
    · simp [parseChildren, hr2]
    · by_cases ht : s.trim = ""
      · simp [parseChildren, ht, hrIds]
      · simp [parseChildren, ht, allocIdsList, allocIds, hrIds]
  case case3 =>
    rename_i i tag attrs kids rest htxt ihR
    obtain ⟨mr, hr2, hrIds⟩ := ihR
    refine ⟨mr, ?_, ?_⟩
    · simp [parseChildren, htxt, hr2]
    · by_cases ht : Node.stripText (.elem tag attrs kids) = ""
      · simp [parseChildren, htxt, ht, hrIds]
      · simp [parseChildren, htxt, ht, allocIdsList, allocIds, hrIds]
  case case4 =>
    rename_i i attrs kids rest hhref hne ihR
    obtain ⟨mr, hr2, hrIds⟩ := ihR
    exact ⟨mr, by simp [parseChildren, hhref, hr2], by simp [parseChildren, hhref, hrIds]⟩
  case case5 =>
    rename_i i attrs kids rest hne hhref ihR
    obtain ⟨mr, hr2, hrIds⟩ := ihR
    exact ⟨mr, by simp [parseChildren, hhref, hr2], by simp [parseChildren, hhref, hrIds]⟩
  case case6 =>
    rename_i i attrs kids rest s hhref hs c hEm hne ihK ihR
    have hc : c = parseChildren i kids := rfl
    rw [hc] at hEm ihR
    rw [List.isEmpty_iff] at hEm
    obtain ⟨mk, hk2, hkIds⟩ := ihK
    have hmk : mk = 0 := by
      rw [hEm] at hkIds
      simpa [allocIdsList] using hkIds.symm
    subst hmk
    rw [Nat.add_zero] at hk2
    rw [hk2] at ihR
    obtain ⟨mr, hr2, hrIds⟩ := ihR
    refine ⟨mr, ?_, ?_⟩
    · simp [parseChildren, *]
    · simp [parseChildren, *]
  case case7 =>
    rename_i i attrs kids rest s hhref hs c hEm hne ihK ihR
    have hc : c = parseChildren i kids := rfl
    rw [hc] at hEm ihR
    obtain ⟨mk, hk2, hkIds⟩ := ihK
    rw [hk2] at ihR
    obtain ⟨mr, hr2, hrIds⟩ := ihR
    refine ⟨mk + mr, ?_, ?_⟩
    · simp [parseChildren, *]
      try omega
    · simp [parseChildren, *, allocIdsList, allocIds]
      try omega
  case case8 =>
    rename_i i attrs kids rest hsrc hne hne2 ihR
    obtain ⟨mr, hr2, hrIds⟩ := ihR
    exact ⟨mr, by simp [parseChildren, hsrc, hr2], by simp [parseChildren, hsrc, hrIds]⟩
  case case9 =>
    rename_i i attrs kids rest hne hne2 hsrc ihR
    obtain ⟨mr, hr2, hrIds⟩ := ihR
    exact ⟨mr, by simp [parseChildren, hsrc, hr2], by simp [parseChildren, hsrc, hrIds]⟩
  case case10 =>
    rename_i i attrs kids rest s hsrc hs hne hne2 ihR
    obtain ⟨mr, hr2, hrIds⟩ := ihR
    refine ⟨mr, ?_, ?_⟩
    · simp [parseChildren, *]
    · simp [parseChildren, *, allocIdsList, allocIds]
  case case11 =>
    rename_i i attrs kids rest c hEm h1 h2 h3 ihK ihR
    have hc : c = parseChildren i kids := rfl
    rw [hc] at hEm ihR
    rw [List.isEmpty_iff] at hEm
    obtain ⟨mk, hk2, hkIds⟩ := ihK
    have hmk : mk = 0 := by
      rw [hEm] at hkIds
      simpa [allocIdsList] using hkIds.symm
    subst hmk
    rw [Nat.add_zero] at hk2
    rw [hk2] at ihR
    obtain ⟨mr, hr2, hrIds⟩ := ihR
    refine ⟨mr, ?_, ?_⟩
    · simp [parseChildren, *]
    · simp [parseChildren, *]
  case case12 =>
    rename_i i attrs kids rest c hEm h1 h2 h3 ihK ihR
    have hc : c = parseChildren i kids := rfl
    rw [hc] at hEm ihR
    obtain ⟨mk, hk2, hkIds⟩ := ihK
    rw [hk2] at ihR
    obtain ⟨mr, hr2, hrIds⟩ := ihR
    refine ⟨mk + 1 + mr, ?_, ?_⟩
    · simp [parseChildren, *]
      try omega
    · simp [parseChildren, *, allocIdsList, allocIds, ← List.range'_succ]
      try omega
  case case13 =>
    rename_i i tag attrs kids rest h1 h2 h3 h4 hhead c hEm ihK ihR
    have hc : c = parseChildren i kids := rfl
    rw [hc] at hEm ihR
    rw [List.isEmpty_iff] at hEm
    obtain ⟨mk, hk2, hkIds⟩ := ihK
    have hmk : mk = 0 := by
      rw [hEm] at hkIds
      simpa [allocIdsList] using hkIds.symm
    subst hmk
    rw [Nat.add_zero] at hk2
    rw [hk2] at ihR
    obtain ⟨mr, hr2, hrIds⟩ := ihR
    refine ⟨mr, ?_, ?_⟩
    · simp [parseChildren, *]
    · simp [parseChildren, *]
  case case14 =>
    rename_i i tag attrs kids rest h1 h2 h3 h4 hhead c hEm ihK ihR
    have hc : c = parseChildren i kids := rfl
    rw [hc] at hEm ihR
    obtain ⟨mk, hk2, hkIds⟩ := ihK
    rw [hk2] at ihR
    obtain ⟨mr, hr2, hrIds⟩ := ihR
    refine ⟨mk + mr, ?_, ?_⟩
    · simp [parseChildren, *]
      try omega
    · simp [parseChildren, *, allocIdsList, allocIds]
      try omega
  case case15 =>
    rename_i i attrs kids rest c hEm h1 h2 h3 h4 h5 ihK ihR
    have hc : c = parseChildren i kids := rfl
    rw [hc] at hEm ihR
    rw [List.isEmpty_iff] at hEm
    obtain ⟨mk, hk2, hkIds⟩ := ihK
    have hmk : mk = 0 := by
      rw [hEm] at hkIds
      simpa [allocIdsList] using hkIds.symm
    subst hmk
    rw [Nat.add_zero] at hk2
    rw [hk2] at ihR
    obtain ⟨mr, hr2, hrIds⟩ := ihR
    refine ⟨mr, ?_, ?_⟩
    · simp [parseChildren, *]
    · simp [parseChildren, *]
  case case16 =>
    rename_i i attrs kids rest c hEm h1 h2 h3 h4 h5 ihK ihR
    have hc : c = parseChildren i kids := rfl
    rw [hc] at hEm ihR
    obtain ⟨mk, hk2, hkIds⟩ := ihK
    rw [hk2] at ihR
    obtain ⟨mr, hr2, hrIds⟩ := ihR
    refine ⟨mk + mr, ?_, ?_⟩
    · simp [parseChildren, *]
      try omega
    · simp [parseChildren, *, allocIdsList, allocIds]
      try omega
  case case17 =>
    rename_i i attrs kids rest hty h1 h2 h3 h4 h5 h6 ihR
    obtain ⟨mr, hr2, hrIds⟩ := ihR
    refine ⟨1 + mr, ?_, ?_⟩
    · simp [parseChildren, *]
      try omega
    · simp [parseChildren, *, allocIdsList, allocIds, ← List.range'_succ]
      try omega
  case case18 =>
    rename_i i attrs kids rest hty1 hty h1 h2 h3 h4 h5 h6 ihR
    obtain ⟨mr, hr2, hrIds⟩ := ihR
    refine ⟨1 + mr, ?_, ?_⟩
    · simp [parseChildren, *]
      try omega
    · simp [parseChildren, *, allocIdsList, allocIds, ← List.range'_succ]
      try omega
  case case19 =>
    rename_i i attrs kids rest hty1 hty2 hty h1 h2 h3 h4 h5 h6 ihR
    obtain ⟨mr, hr2, hrIds⟩ := ihR
    refine ⟨1 + mr, ?_, ?_⟩
    · simp [parseChildren, *]
      try omega
    · simp [parseChildren, *, allocIdsList, allocIds, ← List.range'_succ]
      try omega
  case case20 =>
    rename_i i attrs kids rest hty1 hty2 hty3 hty h1 h2 h3 h4 h5 h6 ihR
    obtain ⟨mr, hr2, hrIds⟩ := ihR
    refine ⟨1 + mr, ?_, ?_⟩
    · simp [parseChildren, *]
      try omega
    · simp [parseChildren, *, allocIdsList, allocIds, ← List.range'_succ]
      try omega
  case case21 =>
    rename_i i attrs kids rest hty1 hty2 hty3 hty4 h1 h2 h3 h4 h5 h6 ihR
    obtain ⟨mr, hr2, hrIds⟩ := ihR
    exact ⟨mr, by simp [parseChildren, *], by simp [parseChildren, *]⟩
  case case22 =>
    rename_i i attrs kids rest c hEm h1 h2 h3 h4 h5 h6 h7 ihK ihR
    have hc : c = parseChildren i kids := rfl
    rw [hc] at hEm ihR
    rw [List.isEmpty_iff] at hEm
    obtain ⟨mk, hk2, hkIds⟩ := ihK
    have hmk : mk = 0 := by
      rw [hEm] at hkIds
      simpa [allocIdsList] using hkIds.symm
    subst hmk
    rw [Nat.add_zero] at hk2
    rw [hk2] at ihR
    obtain ⟨mr, hr2, hrIds⟩ := ihR
    refine ⟨mr, ?_, ?_⟩
    · simp [parseChildren, *]
    · simp [parseChildren, *]
  case case23 =>
    rename_i i attrs kids rest c hEm h1 h2 h3 h4 h5 h6 h7 ihK ihR
    have hc : c = parseChildren i kids := rfl
    rw [hc] at hEm ihR
    obtain ⟨mk, hk2, hkIds⟩ := ihK
    rw [hk2] at ihR
    obtain ⟨mr, hr2, hrIds⟩ := ihR
    refine ⟨mk + mr, ?_, ?_⟩
    · simp [parseChildren, *]
      try omega
    · simp [parseChildren, *, allocIdsList, allocIds]
      try omega
  case case24 =>
    rename_i i attrs kids rest h1 h2 h3 h4 h5 h6 h7 h8 ihR
    obtain ⟨mr, hr2, hrIds⟩ := ihR
    refine ⟨mr, ?_, ?_⟩
    · simp [parseChildren, *]
    · by_cases ht : Node.stripText (.elem ("option") attrs kids) = ""
      · simp [parseChildren, *]
      · simp [parseChildren, *, allocIdsList, allocIds]
  case case25 =>
    rename_i i attrs kids rest c hEm h1 h2 h3 h4 h5 h6 h7 h8 h9 ihK ihR
    have hc : c = parseChildren i kids := rfl
    rw [hc] at hEm ihR
    rw [List.isEmpty_iff] at hEm
    obtain ⟨mk, hk2, hkIds⟩ := ihK
    have hmk : mk = 0 := by
      rw [hEm] at hkIds
      simpa [allocIdsList] using hkIds.symm
    subst hmk
    rw [Nat.add_zero] at hk2
    rw [hk2] at ihR
    obtain ⟨mr, hr2, hrIds⟩ := ihR
    refine ⟨mr, ?_, ?_⟩
    · simp [parseChildren, *]
    · simp [parseChildren, *]
  case case26 =>
    rename_i i attrs kids rest c hEm h1 h2 h3 h4 h5 h6 h7 h8 h9 ihK ihR
    have hc : c = parseChildren i kids := rfl
    rw [hc] at hEm ihR
    obtain ⟨mk, hk2, hkIds⟩ := ihK
    rw [hk2] at ihR
    obtain ⟨mr, hr2, hrIds⟩ := ihR
    refine ⟨mk + mr, ?_, ?_⟩
    · simp [parseChildren, *]
      try omega
    · simp [parseChildren, *, allocIdsList, allocIds]
      try omega
  case case27 =>
    rename_i i attrs kids rest c hEm h1 h2 h3 h4 h5 h6 h7 h8 h9 h10 ihK ihR
    have hc : c = parseChildren i kids := rfl
    rw [hc] at hEm ihR
    rw [List.isEmpty_iff] at hEm
    obtain ⟨mk, hk2, hkIds⟩ := ihK
    have hmk : mk = 0 := by
      rw [hEm] at hkIds
      simpa [allocIdsList] using hkIds.symm
    subst hmk
    rw [Nat.add_zero] at hk2
    rw [hk2] at ihR
    obtain ⟨mr, hr2, hrIds⟩ := ihR
    refine ⟨mr, ?_, ?_⟩
    · simp [parseChildren, *]
    · simp [parseChildren, *]
  case case28 =>
    rename_i i attrs kids rest c hEm h1 h2 h3 h4 h5 h6 h7 h8 h9 h10 ihK ihR
    have hc : c = parseChildren i kids := rfl
    rw [hc] at hEm ihR
    obtain ⟨mk, hk2, hkIds⟩ := ihK
    rw [hk2] at ihR
    obtain ⟨mr, hr2, hrIds⟩ := ihR
    refine ⟨mk + mr, ?_, ?_⟩
    · simp [parseChildren, *]
      try omega
    · simp [parseChildren, *, allocIdsList, allocIds]
      try omega
  case case29 =>
    rename_i i attrs kids rest c hEm h1 h2 h3 h4 h5 h6 h7 h8 h9 h10 h11 ihK ihR
    have hc : c = parseChildren i kids := rfl
    rw [hc] at hEm ihR
    rw [List.isEmpty_iff] at hEm
    obtain ⟨mk, hk2, hkIds⟩ := ihK
    have hmk : mk = 0 := by
      rw [hEm] at hkIds
      simpa [allocIdsList] using hkIds.symm
    subst hmk
    rw [Nat.add_zero] at hk2
    rw [hk2] at ihR
    obtain ⟨mr, hr2, hrIds⟩ := ihR
    refine ⟨mr, ?_, ?_⟩
    · simp [parseChildren, *]
    · simp [parseChildren, *]
  case case30 =>
    rename_i i attrs kids rest c hEm h1 h2 h3 h4 h5 h6 h7 h8 h9 h10 h11 ihK ihR
    have hc : c = parseChildren i kids := rfl
    rw [hc] at hEm ihR
    obtain ⟨mk, hk2, hkIds⟩ := ihK
    rw [hk2] at ihR
    obtain ⟨mr, hr2, hrIds⟩ := ihR
    refine ⟨mk + mr, ?_, ?_⟩
    · simp [parseChildren, *]
      try omega
    · simp [parseChildren, *, allocIdsList, allocIds]
      try omega
  case case31 =>
    rename_i i tag attrs kids rest h1 h2 h3 h4 h5 h6 h7 h8 h9 h10 h11 h12 c ihK ihR
    have hc : c = parseChildren i kids := rfl
    rw [hc] at ihR
    obtain ⟨mk, hk2, hkIds⟩ := ihK
    rw [hk2] at ihR
    obtain ⟨mr, hr2, hrIds⟩ := ihR
    refine ⟨mk + mr, ?_, ?_⟩
    · simp [parseChildren, *]
      try omega
    · simp [parseChildren, *, allocIdsList_append]
      try omega

theorem wfList_append (xs ys : List Element) :
    wfList (xs ++ ys) = (wfList xs && wfList ys) := by
  induction xs with
  | nil => simp [wfList]
  | cons x xs ih => simp [wfList, ih, Bool.and_assoc]

theorem parseChildren_wf : ∀ (i : Nat) (ns : List Node), wfList (parseChildren i ns).1 = true := by
  intro i ns
  induction i, ns using parseChildren.induct <;>
    simp_all [parseChildren, wfList, Element.wf, wfList_append] <;>
    (try split) <;> simp_all [wfList, Element.wf]

theorem parseChildren_empty_snd (i : Nat) (ns : List Node)
    (h : (parseChildren i ns).1 = []) : (parseChildren i ns).2 = i := by
  obtain ⟨m, h2, hIds⟩ := parseChildren_allocIds i ns
  rw [h] at hIds
  have : m = 0 := by simpa [allocIdsList] using hIds.symm
  omega

/-- The branch of the parse_children elif chain (lines 154-295) selected for
an element with the given tag: the conditions are those of the chain, tested
in source order. -/
inductive TagClass where
  | textual
  | anchorTag
  | imageTag
  | buttonTag
  | headingTag
  | paragraphTag
  | inputTag
  | selectTag
  | optionTag
  | labelTag
  | detailsTag
  | summaryTag
  | fragment
deriving Repr, DecidableEq

/-- Dispatch of the elif chain on a tag name, in source order, under the
ASCII heading recognizer; pyClassifyTag below is the dispatch under the
full str.isdigit semantics, and the two agree on ASCII tags
(pyClassifyTag_ascii). -/
def classifyTag (tag : String) : TagClass :=
  if tag = ("") ∨ tag = ("-text") then .textual
  else if tag = ("a") then .anchorTag
  else if tag = ("img") then .imageTag
  else if tag = ("button") then .buttonTag
  else if isHeadingTag tag then .headingTag
  else if tag = ("p") then .paragraphTag
  else if tag = ("input") then .inputTag
  else if tag = ("select") then .selectTag
  else if tag = ("option") then .optionTag
  else if tag = ("label") then .labelTag
  else if tag = ("details") then .detailsTag
  else if tag = ("summary") then .summaryTag
  else .fragment


/-- Python str.isdigit on one character: true for characters whose Unicode
Numeric_Type is Decimal or Digit.  Below U+0080 those are exactly the ASCII
digits (Char.isDigit); beyond ASCII this development records the characters
its theorems mention: the Arabic-Indic decimal digits U+0660-U+0669 and the
Digit-only superscripts U+00B9, U+00B2, U+00B3.  Other Unicode digit
characters behave like the listed ones and are not referenced by any
theorem of this file. -/
def pyIsDigit (c : Char) : Bool :=
  c.isDigit
    || c = ('\u0660') || c = ('\u0661') || c = ('\u0662') || c = ('\u0663')
    || c = ('\u0664') || c = ('\u0665') || c = ('\u0666') || c = ('\u0667')
    || c = ('\u0668') || c = ('\u0669')
    || c = ('\u00B9') || c = ('\u00B2') || c = ('\u00B3')

/-- Python int() on a one-character string: the decimal value when the
character's Unicode Numeric_Type is Decimal, none when int raises
ValueError - which happens exactly for the characters str.isdigit accepts
whose Numeric_Type is Digit but not Decimal, such as the superscripts. -/
def pyIntDigit (c : Char) : Option Nat :=
  if c.isDigit then some (c.toNat - Char.toNat ('0'))
  else if c = ('\u0660') then some 0
  else if c = ('\u0661') then some 1
  else if c = ('\u0662') then some 2
  else if c = ('\u0663') then some 3
  else if c = ('\u0664') then some 4
  else if c = ('\u0665') then some 5
  else if c = ('\u0666') then some 6
  else if c = ('\u0667') then some 7
  else if c = ('\u0668') then some 8
  else if c = ('\u0669') then some 9
  else none

/-- The heading recognizer of lines 187-191 under the full str.isdigit
semantics; isHeadingTag is its restriction to ASCII digits. -/
def pyIsHeadingTag (tag : String) : Bool :=
  tag.length == 2 && tag.data.head? == some 'h' &&
    (match tag.data.getLast? with
     | some c => pyIsDigit c
     | none => false)

/-- Dispatch of the elif chain under the full str.isdigit semantics;
classifyTag is its restriction to ASCII tags (pyClassifyTag_ascii). -/
def pyClassifyTag (tag : String) : TagClass :=
  if tag = ("") ∨ tag = ("-text") then .textual
  else if tag = ("a") then .anchorTag
  else if tag = ("img") then .imageTag
  else if tag = ("button") then .buttonTag
  else if pyIsHeadingTag tag then .headingTag
  else if tag = ("p") then .paragraphTag
  else if tag = ("input") then .inputTag
  else if tag = ("select") then .selectTag
  else if tag = ("option") then .optionTag
  else if tag = ("label") then .labelTag
  else if tag = ("details") then .detailsTag
  else if tag = ("summary") then .summaryTag
  else .fragment

/-- Whether the heading branch of parse_children raises ValueError at a
node with this tag: tag[-1].isdigit() accepted the trailing character
(line 190) but int(tag[1:]) cannot parse it (line 196). -/
def headingBranchRaises (tag : String) : Bool :=
  pyIsHeadingTag tag &&
    (match tag.data.getLast? with
     | some c => (pyIntDigit c).isNone
     | none => false)

/-- All characters of the tag are ASCII; on such tags str.isdigit and
Char.isDigit agree, so the embedded dispatch is exact. -/
def isAsciiTag (tag : String) : Bool :=
  tag.data.all (fun c => c.toNat ≤ 127)

mutual

/-- Every Heading level appearing in an element tree is at most 9. -/
def levelsOk : Element → Bool
  | .heading lvl inner => decide (lvl ≤ 9) && levelsOkList inner
  | .anchor _ inner => levelsOkList inner
  | .button _ inner => levelsOkList inner
  | .paragraph inner => levelsOkList inner
  | .label inner => levelsOkList inner
  | .select inner _ => levelsOkList inner
  | .details inner => levelsOkList inner
  | .summary inner => levelsOkList inner
  | _ => true

/-- Heading-level bound over a sibling sequence. -/
def levelsOkList : List Element → Bool
  | [] => true
  | e :: es => levelsOk e && levelsOkList es

end

theorem levelsOkList_append (xs ys : List Element) :
    levelsOkList (xs ++ ys) = (levelsOkList xs && levelsOkList ys) := by
  induction xs with
  | nil => simp [levelsOkList]
  | cons x xs ih => simp [levelsOkList, ih, Bool.and_assoc]

theorem headingLevel_le_nine (tag : String) (h : isHeadingTag tag = true) :
    headingLevel tag ≤ 9 := by
  unfold isHeadingTag at h
  unfold headingLevel
  rcases hg : tag.data.getLast? with _ | c
  · rw [hg] at h
    simp at h
  · rw [hg] at h
    simp at h
    obtain ⟨-, hd⟩ := h
    simp only [Char.isDigit] at hd
    have h57 : c.val.toNat ≤ 57 := by
      have hle : c.val ≤ 57 := by
        have := (Bool.and_eq_true _ _).mp hd
        exact of_decide_eq_true this.2
      exact UInt32.toNat_le_of_le (by decide) hle
    show c.toNat - Char.toNat '0' ≤ 9
    have hc : c.toNat = c.val.toNat := rfl
    have h0 : Char.toNat '0' = 48 := rfl
    rw [hc, h0]
    omega

theorem isHeadingTag_not_keyword (tag : String) (h : isHeadingTag tag = true) :
    ¬(tag = ("") ∨ tag = ("-text")) ∧ tag ≠ ("a") ∧ tag ≠ ("img") ∧ tag ≠ ("button")
      ∧ tag ≠ ("p") ∧ tag ≠ ("input") ∧ tag ≠ ("select") ∧ tag ≠ ("option")
      ∧ tag ≠ ("label") ∧ tag ≠ ("details") ∧ tag ≠ ("summary") := by
  refine ⟨?_, ?_, ?_, ?_, ?_, ?_, ?_, ?_, ?_, ?_, ?_⟩
  · rintro (rfl | rfl) <;> exact absurd h (by decide)
  all_goals rintro rfl
  all_goals exact absurd h (by decide)


theorem pyIsDigit_ascii (c : Char) (h : c.toNat ≤ 127) : pyIsDigit c = c.isDigit := by
  have h1 : c ≠ ('\u0660') := by rintro rfl; exact absurd h (by decide)
  have h2 : c ≠ ('\u0661') := by rintro rfl; exact absurd h (by decide)
  have h3 : c ≠ ('\u0662') := by rintro rfl; exact absurd h (by decide)
  have h4 : c ≠ ('\u0663') := by rintro rfl; exact absurd h (by decide)
  have h5 : c ≠ ('\u0664') := by rintro rfl; exact absurd h (by decide)
  have h6 : c ≠ ('\u0665') := by rintro rfl; exact absurd h (by decide)
  have h7 : c ≠ ('\u0666') := by rintro rfl; exact absurd h (by decide)
  have h8 : c ≠ ('\u0667') := by rintro rfl; exact absurd h (by decide)
  have h9 : c ≠ ('\u0668') := by rintro rfl; exact absurd h (by decide)
  have h10 : c ≠ ('\u0669') := by rintro rfl; exact absurd h (by decide)
  have h11 : c ≠ ('\u00B9') := by rintro rfl; exact absurd h (by decide)
  have h12 : c ≠ ('\u00B2') := by rintro rfl; exact absurd h (by decide)
  have h13 : c ≠ ('\u00B3') := by rintro rfl; exact absurd h (by decide)
  simp [pyIsDigit, h1, h2, h3, h4, h5, h6, h7, h8, h9, h10, h11, h12, h13]

theorem pyIsHeadingTag_ascii (tag : String) (hA : isAsciiTag tag = true) :
    pyIsHeadingTag tag = isHeadingTag tag := by
  unfold pyIsHeadingTag isHeadingTag
  cases hg : tag.data.getLast? with
  | none => simp [hg]
  | some c =>
    have hmem : c ∈ tag.data := List.mem_of_getLast?_eq_some hg
    have hc : c.toNat ≤ 127 := by
      have hall : ∀ x ∈ tag.data, x.toNat ≤ 127 := by simpa [isAsciiTag] using hA
      exact hall c hmem
    simp [hg, pyIsDigit_ascii c hc]

theorem pyClassifyTag_ascii (tag : String) (hA : isAsciiTag tag = true) :
    pyClassifyTag tag = classifyTag tag := by
  unfold pyClassifyTag classifyTag
  simp only [pyIsHeadingTag_ascii tag hA]

theorem pyIsHeadingTag_not_keyword (tag : String) (h : pyIsHeadingTag tag = true) :
    ¬(tag = ("") ∨ tag = ("-text")) ∧ tag ≠ ("a") ∧ tag ≠ ("img") ∧ tag ≠ ("button") := by
  refine ⟨?_, ?_, ?_, ?_⟩
  · rintro (rfl | rfl) <;> exact absurd h (by decide)
  all_goals rintro rfl
  all_goals exact absurd h (by decide)

set_option maxHeartbeats 2000000 in
theorem pyIntDigit_le_nine (c : Char) (v : Nat) (h : pyIntDigit c = some v) : v ≤ 9 := by
  unfold pyIntDigit at h
  split_ifs at h with hd
  · simp only [Option.some.injEq] at h
    simp only [Char.isDigit] at hd
    have h2 : c.val ≤ 57 := by
      have hb := (Bool.and_eq_true _ _).mp hd
      exact of_decide_eq_true hb.2
    have h57 : c.val.toNat ≤ 57 := UInt32.toNat_le_of_le (by decide) h2
    have hc : c.toNat = c.val.toNat := rfl
    have h0 : Char.toNat ('0') = 48 := rfl
    omega
  all_goals simp only [Option.some.injEq] at h
  all_goals omega

theorem parseChildren_levelsOk : ∀ (i : Nat) (ns : List Node),
    levelsOkList (parseChildren i ns).1 = true := by
  intro i ns
  induction i, ns using parseChildren.induct <;>
    simp_all [parseChildren, levelsOkList, levelsOk, levelsOkList_append, headingLevel_le_nine] <;>
    (try split) <;> simp_all [levelsOkList, levelsOk]

theorem Parser.parse_allocIds (p : Parser) (body : Option Node) :
    ∃ m, ((p.parse body).2).id = p.id + m
      ∧ allocIdsList (p.parse body).1 = List.range' p.id m := by
  cases body with
  | none => exact ⟨0, by simp [Parser.parse], by simp [Parser.parse, allocIdsList]⟩
  | some b =>
    obtain ⟨m, h2, hIds⟩ := parseChildren_allocIds p.id b.childrenList
    exact ⟨m, by simpa [Parser.parse] using h2, by simpa [Parser.parse] using hIds⟩

/-- C5: for every anchor element whose attribute map has no href key, the
classifier skips the whole subtree: processing the anchor node leaves both
the output and the id counter exactly as if the node were absent. -/
theorem C5_anchor_no_href_skips_subtree (i : Nat) (attrs : List (String × Option String))
    (kids rest : List Node) (h : attrs.lookup ("href") = none) :
    parseChildren i (.elem ("a") attrs kids :: rest) = parseChildren i rest := by
  have hg : getAttr attrs ("href") = none := by simp [getAttr, h]
  simp [parseChildren, hg]

/-- C5 witness: an href-less anchor containing an id-consuming input is
dropped whole: no element from the subtree, no id consumed. -/
theorem C5_witness :
    parseChildren 0 [Node.elem ("a") [] [Node.elem ("input") [] [], Node.text ("x")]]
      = parseChildren 0 [] :=
  C5_anchor_no_href_skips_subtree 0 [] [Node.elem ("input") [] [], Node.text ("x")] [] rfl

/-- C8 counterexample: the no-body empty sequence is not the sole
externally visible failure mode.  At the concrete tag h-superscript-two,
the heading branch is entered (str.isdigit accepts the superscript two,
Numeric_Type Digit) but int(tag[1:]) at line 196 cannot parse it and
raises ValueError - an externally visible classifier failure distinct from
the no-body case. -/
theorem C8_heading_int_raises_cex :
    pyClassifyTag ("h\u00B2") = TagClass.headingTag
    ∧ pyIsDigit ('\u00B2') = true
    ∧ pyIntDigit ('\u00B2') = none
    ∧ headingBranchRaises ("h\u00B2") = true := by
  refine ⟨by decide, by decide, by decide, by decide⟩

/-- C8 amended: when the document has no body node, parse returns the
empty sequence and leaves the parser state untouched, raising no error;
but this is not the sole externally visible failure mode: the heading
branch raises ValueError on tags whose trailing character str.isdigit
accepts but int cannot parse, such as h-superscript-two. -/
theorem C8_no_body_empty_not_sole_failure (p : Parser) :
    p.parse none = ([], p) ∧ headingBranchRaises ("h\u00B2") = true :=
  ⟨rfl, by decide⟩

/-- C9: two parser instances in the freshly-constructed state (id = 0)
produce structurally identical output, ids included, on the same document:
the id counter is the only instance state. -/
theorem C9_fresh_parsers_deterministic (body : Option Node) (p q : Parser)
    (h1 : p.id = 0) (h2 : q.id = 0) : p.parse body = q.parse body := by
  cases p
  cases q
  simp_all

/-- C9 witness at a concrete document. -/
theorem C9_witness :
    Parser.mkNew.parse (some (Node.text ("hi"))) = Parser.mkNew.parse (some (Node.text ("hi"))) :=
  C9_fresh_parsers_deterministic (some (Node.text ("hi"))) Parser.mkNew Parser.mkNew rfl rfl

/-- C2: boolean-attribute coercion: an absent key gives false; a present key
with value None, the empty string or the literal string true gives true; a
present key with any other non-empty string gives false — and the checkbox,
radio and select branches feed exactly this coercion into the emitted
element. -/
theorem C2_boolean_attribute_coercion (attrs : List (String × Option String)) (k : String)
    (i : Nat) (kids rest : List Node) :
    (attrs.lookup k = none → boolAttr attrs k = false)
    ∧ (attrs.lookup k = some none → boolAttr attrs k = true)
    ∧ (attrs.lookup k = some (some ("")) → boolAttr attrs k = true)
    ∧ (attrs.lookup k = some (some ("true")) → boolAttr attrs k = true)
    ∧ (∀ s : String, attrs.lookup k = some (some s) → s ≠ ("") → s ≠ ("true") →
        boolAttr attrs k = false)
    ∧ (inputType attrs = some ("checkbox") →
        (parseChildren i (.elem ("input") attrs kids :: rest)).1
          = Element.checkboxInput i (boolAttr attrs ("checked")) :: (parseChildren (i + 1) rest).1)
    ∧ (inputType attrs = some ("radio") →
        (parseChildren i (.elem ("input") attrs kids :: rest)).1
          = Element.radioInput i (boolAttr attrs ("checked")) :: (parseChildren (i + 1) rest).1)
    ∧ ((parseChildren i kids).1 ≠ [] →
        (parseChildren i (.elem ("select") attrs kids :: rest)).1
          = Element.select (parseChildren i kids).1 (boolAttr attrs ("multiple"))
              :: (parseChildren (parseChildren i kids).2 rest).1) := by
  refine ⟨?_, ?_, ?_, ?_, ?_, ?_, ?_, ?_⟩
  · intro h
    simp [boolAttr, h]
  · intro h
    simp [boolAttr, h, pyFalsy]
  · intro h
    simp [boolAttr, h, pyFalsy]
  · intro h
    simp [boolAttr, h, pyFalsy]
  · intro s h hs1 hs2
    simp [boolAttr, h, pyFalsy, hs1, hs2]
  · intro h
    simp [parseChildren, h, isHeadingTag]
  · intro h
    simp [parseChildren, h, isHeadingTag]
  · intro h
    simp [parseChildren, h, isHeadingTag]

/-- C2 witness: concrete coercions (value yes gives false, valueless key
gives true) and a concrete checkbox emission. -/
theorem C2_witness :
    boolAttr [(("checked" : String), some ("yes"))] ("checked") = false
    ∧ boolAttr [(("checked" : String), none)] ("checked") = true
    ∧ (parseChildren 0 [Node.elem ("input")
          [(("type" : String), some ("checkbox")), (("checked" : String), none)] []]).1
        = [Element.checkboxInput 0 true] := by
  refine ⟨?_, ?_, ?_⟩
  · exact (C2_boolean_attribute_coercion [(("checked" : String), some ("yes"))] ("checked")
      0 [] []).2.2.2.2.1 ("yes") rfl (by decide) (by decide)
  · exact (C2_boolean_attribute_coercion [(("checked" : String), none)] ("checked")
      0 [] []).2.1 rfl
  · have h := (C2_boolean_attribute_coercion
      [(("type" : String), some ("checkbox")), (("checked" : String), none)] ("checked")
      0 [] []).2.2.2.2.2.1 (by decide)
    rw [h]
    simp [parseChildren, boolAttr, pyFalsy, List.lookup]

/-- C6: the input branch defaults a missing type key to text; types text,
url, checkbox and radio emit the respective control consuming exactly one
id; any other type value produces no element and consumes no id. -/
theorem C6_input_type_dispatch (attrs : List (String × Option String)) (i : Nat)
    (kids rest : List Node) :
    (attrs.lookup ("type") = none → inputType attrs = some ("text"))
    ∧ (inputType attrs = some ("text") →
        parseChildren i (.elem ("input") attrs kids :: rest)
          = (Element.textInput i (getAttr attrs ("placeholder")) :: (parseChildren (i + 1) rest).1,
             (parseChildren (i + 1) rest).2))
    ∧ (inputType attrs = some ("url") →
        parseChildren i (.elem ("input") attrs kids :: rest)
          = (Element.urlInput i (getAttr attrs ("placeholder")) :: (parseChildren (i + 1) rest).1,
             (parseChildren (i + 1) rest).2))
    ∧ (inputType attrs = some ("checkbox") →
        parseChildren i (.elem ("input") attrs kids :: rest)
          = (Element.checkboxInput i (boolAttr attrs ("checked")) :: (parseChildren (i + 1) rest).1,
             (parseChildren (i + 1) rest).2))
    ∧ (inputType attrs = some ("radio") →
        parseChildren i (.elem ("input") attrs kids :: rest)
          = (Element.radioInput i (boolAttr attrs ("checked")) :: (parseChildren (i + 1) rest).1,
             (parseChildren (i + 1) rest).2))
    ∧ (inputType attrs ≠ some ("text") → inputType attrs ≠ some ("url") →
       inputType attrs ≠ some ("checkbox") → inputType attrs ≠ some ("radio") →
        parseChildren i (.elem ("input") attrs kids :: rest) = parseChildren i rest) := by
  refine ⟨?_, ?_, ?_, ?_, ?_, ?_⟩
  · intro h
    simp [inputType, h]
  · intro h
    simp [parseChildren, h, isHeadingTag]
  · intro h
    simp [parseChildren, h, isHeadingTag]
  · intro h
    simp [parseChildren, h, isHeadingTag]
  · intro h
    simp [parseChildren, h, isHeadingTag]
  · intro h1 h2 h3 h4
    simp [parseChildren, h1, h2, h3, h4, isHeadingTag]

/-- C6 witness: a type-less input becomes a TextInput with id 0, and a
range input produces nothing and consumes no id. -/
theorem C6_witness :
    inputType [] = some ("text")
    ∧ (parseChildren 0 [Node.elem ("input") [] []]).1 = [Element.textInput 0 none]
    ∧ parseChildren 0 [Node.elem ("input") [(("type" : String), some ("range"))] []]
        = parseChildren 0 [] := by
  refine ⟨(C6_input_type_dispatch [] 0 [] []).1 rfl, ?_, ?_⟩
  · have h := (C6_input_type_dispatch [] 0 [] []).2.1 rfl
    rw [h]
    simp [getAttr, parseChildren]
  · exact (C6_input_type_dispatch [(("type" : String), some ("range"))] 0 [] []).2.2.2.2.2
      (by decide) (by decide) (by decide) (by decide)

/-- C4: for an anchor, button, heading, paragraph, label, details, summary
or select node whose recursive classification of children is empty, no
element is emitted and the id counter is left untouched (processing the
node is the identity on output and counter); consequently every emitted
element carrying an inner list has a non-empty inner list and every emitted
Text or Option carries non-empty extracted text. -/
theorem C4_empty_children_no_emit_no_id :
    (∀ (i : Nat) (tag : String) (attrs : List (String × Option String)) (kids rest : List Node),
      (tag = ("a") ∨ tag = ("button") ∨ isHeadingTag tag = true ∨ tag = ("p") ∨ tag = ("label")
        ∨ tag = ("details") ∨ tag = ("summary") ∨ tag = ("select")) →
      (parseChildren i kids).1 = [] →
      parseChildren i (.elem tag attrs kids :: rest) = parseChildren i rest)
    ∧ (∀ (i : Nat) (ns : List Node), wfList (parseChildren i ns).1 = true) := by
  constructor
  · intro i tag attrs kids rest htag hk
    have hsnd := parseChildren_empty_snd i kids hk
    rcases htag with rfl | rfl | hh | rfl | rfl | rfl | rfl | rfl
    · rcases hhref : getAttr attrs ("href") with _ | s
      · simp [parseChildren, hhref]
      · by_cases hs : s = ("")
        · simp [parseChildren, hhref, hs]
        · simp [parseChildren, hhref, hs, hk, hsnd]
    · simp [parseChildren, hk, hsnd]
    · obtain ⟨hA, hB, hC, hD, -⟩ := isHeadingTag_not_keyword tag hh
      simp [parseChildren, hA, hB, hC, hD, hh, hk, hsnd]
    · simp [parseChildren, isHeadingTag, hk, hsnd]
    · simp [parseChildren, isHeadingTag, hk, hsnd]
    · simp [parseChildren, isHeadingTag, hk, hsnd]
    · simp [parseChildren, isHeadingTag, hk, hsnd]
    · simp [parseChildren, isHeadingTag, hk, hsnd]
  · exact parseChildren_wf

/-- C4 witness: an empty button is dropped without advancing the counter,
and a concrete output is well-formed. -/
theorem C4_witness :
    parseChildren 0 [Node.elem ("button") [] []] = parseChildren 0 []
    ∧ wfList (parseChildren 0 [Node.text ("x")]).1 = true :=
  ⟨C4_empty_children_no_emit_no_id.1 0 ("button") [] [] []
      (Or.inr (Or.inl rfl)) (by simp [parseChildren]),
   C4_empty_children_no_emit_no_id.2 0 [Node.text ("x")]⟩

/-- C1 counterexample: in the document body button(input), the button tag
starts before its nested input in document pre-order, yet the button
receives id 1 and the input id 0, because the button id is fetched only
after its children were parsed; the pre-order id sequence 1, 0 is not
strictly increasing, refuting the claim as stated. -/
theorem C1_button_id_not_preorder_cex :
    (Parser.mkNew.parse (some (Node.elem ("body") []
        [Node.elem ("button") [] [Node.elem ("input") [] []]]))).1
      = [Element.button 1 [Element.textInput 0 none]]
    ∧ ¬ List.Pairwise (fun a b => a < b)
        (preorderIdsList (Parser.mkNew.parse (some (Node.elem ("body") []
          [Node.elem ("button") [] [Node.elem ("input") [] []]]))).1) := by
  have h : (Parser.mkNew.parse (some (Node.elem ("body") []
        [Node.elem ("button") [] [Node.elem ("input") [] []]]))).1
      = [Element.button 1 [Element.textInput 0 none]] := by
    simp [Parser.parse, Parser.mkNew, Node.childrenList, parseChildren, inputType, isHeadingTag,
      getAttr]
  refine ⟨h, ?_⟩
  rw [h]
  simp [preorderIdsList, preorderIds, List.pairwise_cons]

/-- C1 amended: within one run the ids allocated by the classifier are
exactly the consecutive range starting at the incoming counter value, taken
in allocation order — document order, except that a Button fetches its own
id only after its subtree was classified — hence pairwise distinct and
strictly increasing in that order. -/
theorem C1_ids_distinct_increasing_alloc_order (i : Nat) (ns : List Node) :
    allocIdsList (parseChildren i ns).1 = List.range' i ((parseChildren i ns).2 - i)
    ∧ List.Pairwise (fun a b => a < b) (allocIdsList (parseChildren i ns).1)
    ∧ (allocIdsList (parseChildren i ns).1).Nodup := by
  obtain ⟨m, h2, hIds⟩ := parseChildren_allocIds i ns
  have hm : (parseChildren i ns).2 - i = m := by omega
  refine ⟨by rw [hIds, hm], ?_, ?_⟩
  · rw [hIds]
    exact List.pairwise_lt_range' i m
  · rw [hIds]
    exact List.nodup_range' i m

/-- C3 counterexample: the tag h0 passes the heading recognizer (two
characters, leading h, trailing digit) and is classified as a heading with
level 0, which is not in 1..9. -/
theorem C3_h0_heading_cex :
    (Parser.mkNew.parse (some (Node.elem ("body") []
        [Node.elem ("h0") [] [Node.elem ("input") [] []]]))).1
      = [Element.heading 0 [Element.textInput 0 none]]
    ∧ ¬ 1 ≤ 0 := by
  constructor
  · have hh : isHeadingTag ("h0") = true := by decide
    have hl : headingLevel ("h0") = 0 := by decide
    have hbody : isHeadingTag ("body") = false := by decide
    have hinp : isHeadingTag ("input") = false := by decide
    simp [Parser.parse, Parser.mkNew, Node.childrenList, parseChildren, inputType, hh, hl,
      hbody, hinp, getAttr]
  · decide

set_option maxHeartbeats 2000000 in
/-- C3 amended: a node takes the heading branch exactly when its tag has
two characters, the first h and the second accepted by Python str.isdigit;
for ASCII digits - h0 through h9, so including h0 - the emitted Heading
carries level equal to the digit value, lying in 0..9; whenever int parses
the accepted digit character the value is at most 9, and every Heading
appearing anywhere in any output obeys the bound (Digit-only characters
such as the superscripts make int raise instead of emitting, see C8). -/
theorem C3_heading_rule_amended (tag : String) :
    (pyClassifyTag tag = TagClass.headingTag ↔ pyIsHeadingTag tag = true)
    ∧ (isHeadingTag tag = true → pyIsHeadingTag tag = true)
    ∧ (isHeadingTag tag = true → headingLevel tag ≤ 9)
    ∧ (∀ (i : Nat) (attrs : List (String × Option String)) (kids rest : List Node),
        isHeadingTag tag = true →
        parseChildren i (.elem tag attrs kids :: rest)
          = (if (parseChildren i kids).1.isEmpty
             then parseChildren (parseChildren i kids).2 rest
             else (Element.heading (headingLevel tag) (parseChildren i kids).1
                     :: (parseChildren (parseChildren i kids).2 rest).1,
                   (parseChildren (parseChildren i kids).2 rest).2)))
    ∧ (∀ (c : Char) (v : Nat), pyIntDigit c = some v → v ≤ 9)
    ∧ (∀ (i : Nat) (ns : List Node), levelsOkList (parseChildren i ns).1 = true) := by
  refine ⟨?_, ?_, headingLevel_le_nine tag, ?_, pyIntDigit_le_nine, parseChildren_levelsOk⟩
  · constructor
    · intro hcl
      unfold pyClassifyTag at hcl
      split_ifs at hcl
      assumption
    · intro hh
      obtain ⟨h1, h2, h3, h4⟩ := pyIsHeadingTag_not_keyword tag hh
      unfold pyClassifyTag
      simp [h1, h2, h3, h4, hh]
  · intro hh
    unfold isHeadingTag at hh
    unfold pyIsHeadingTag
    cases hg : tag.data.getLast? with
    | none =>
      rw [hg] at hh
      simp at hh
    | some c =>
      rw [hg] at hh
      simp only [Bool.and_eq_true, beq_iff_eq] at hh ⊢
      refine ⟨hh.1, ?_⟩
      simp [pyIsDigit, hh.2]
  · intro i attrs kids rest hh
    obtain ⟨hA, hB, hC, hD, -⟩ := isHeadingTag_not_keyword tag hh
    by_cases hk : (parseChildren i kids).1.isEmpty
    · simp [parseChildren, hA, hB, hC, hD, hh, hk]
    · simp [parseChildren, hA, hB, hC, hD, hh, hk]

/-- C3 witness: h3 is recognized by the full recognizer, the Arabic-Indic
digit three parses to 3 which is within bounds, and the branch shape holds
at a concrete node. -/
theorem C3_witness :
    pyIsHeadingTag ("h3") = true
    ∧ (3 : Nat) ≤ 9
    ∧ parseChildren 0 [Node.elem ("h3") [] [Node.elem ("input") [] []]]
        = (if (parseChildren 0 [Node.elem ("input") [] []]).1.isEmpty
           then parseChildren (parseChildren 0 [Node.elem ("input") [] []]).2 []
           else (Element.heading (headingLevel ("h3")) (parseChildren 0 [Node.elem ("input") [] []]).1
                   :: (parseChildren (parseChildren 0 [Node.elem ("input") [] []]).2 []).1,
                 (parseChildren (parseChildren 0 [Node.elem ("input") [] []]).2 []).2)) :=
  ⟨(C3_heading_rule_amended ("h3")).2.1 (by decide),
   (C3_heading_rule_amended ("h3")).2.2.2.2.1 ('\u0663') 3 (by decide),
   (C3_heading_rule_amended ("h3")).2.2.2.1 0 [] [Node.elem ("input") [] []] [] (by decide)⟩

/-- C7 counterexample: h0 is outside the claim's recognized set (which lists
only h1 through h9), yet the classifier does not treat it transparently: it
wraps the classified children in a Heading instead of splicing them. -/
theorem C7_h0_not_transparent_cex :
    (parseChildren 0 [Node.elem ("h0") [] [Node.elem ("button") [] [Node.elem ("input") [] []]]]).1
      = [Element.heading 0 [Element.button 1 [Element.textInput 0 none]]]
    ∧ (parseChildren 0 [Node.elem ("h0") [] [Node.elem ("button") [] [Node.elem ("input") [] []]]]).1
      ≠ (parseChildren 0 [Node.elem ("button") [] [Node.elem ("input") [] []]]).1 := by
  have hh : isHeadingTag ("h0") = true := by decide
  have hl : headingLevel ("h0") = 0 := by decide
  have hbtn : isHeadingTag ("button") = false := by decide
  have hinp : isHeadingTag ("input") = false := by decide
  constructor
  · simp [parseChildren, inputType, hh, hl, hbtn, hinp, getAttr]
  · simp [parseChildren, inputType, hh, hl, hbtn, hinp, getAttr]

set_option maxHeartbeats 2000000 in
/-- C7 amended: every ASCII tag falling through the whole dispatch chain
(not the text marker, not a, img, button, p, input, select, option, label,
details, summary, and not a two-character h-digit heading tag, h0 through
h9 for ASCII) is transparent: its classified children are spliced into the
current level at its position and nothing is emitted for the tag itself.
The ASCII restriction is necessary because str.isdigit also accepts
non-ASCII digit characters, routing tags such as h-arabic-three to the
heading branch; on ASCII tags the full dispatch provably agrees, which the
first conjunct records. -/
theorem C7_unrecognized_tag_transparent (i : Nat) (tag : String)
    (attrs : List (String × Option String)) (kids rest : List Node)
    (hA : isAsciiTag tag = true) (h : classifyTag tag = TagClass.fragment) :
    pyClassifyTag tag = TagClass.fragment
    ∧ parseChildren i (.elem tag attrs kids :: rest)
      = ((parseChildren i kids).1 ++ (parseChildren (parseChildren i kids).2 rest).1,
         (parseChildren (parseChildren i kids).2 rest).2) := by
  refine ⟨by rw [pyClassifyTag_ascii tag hA, h], ?_⟩
  unfold classifyTag at h
  split_ifs at h
  all_goals first
    | exact absurd h (by decide)
    | simp [parseChildren, *]

/-- C7 witness: a div is spliced transparently, and the full dispatch
agrees that div is unrecognized. -/
theorem C7_witness :
    pyClassifyTag ("div") = TagClass.fragment
    ∧ parseChildren 0 [Node.elem ("div") [] [Node.elem ("input") [] []]]
      = ((parseChildren 0 [Node.elem ("input") [] []]).1
          ++ (parseChildren (parseChildren 0 [Node.elem ("input") [] []]).2 []).1,
         (parseChildren (parseChildren 0 [Node.elem ("input") [] []]).2 []).2) :=
  C7_unrecognized_tag_transparent 0 ("div") [] [Node.elem ("input") [] []] []
    (by decide) (by decide)

/-- C10: a second parse call on the same instance does not reset the id
counter: every id allocated by the second call is strictly greater than
every id allocated by the first call on that instance. -/
theorem C10_second_parse_continues_ids (p : Parser) (b1 b2 : Option Node) (x y : Nat)
    (hx : x ∈ allocIdsList (p.parse b1).1)
    (hy : y ∈ allocIdsList ((p.parse b1).2.parse b2).1) :
    x < y := by
  obtain ⟨m1, h1, hIds1⟩ := Parser.parse_allocIds p b1
  obtain ⟨m2, h2, hIds2⟩ := Parser.parse_allocIds (p.parse b1).2 b2
  rw [hIds1, List.mem_range'_1] at hx
  rw [hIds2, List.mem_range'_1] at hy
  omega

/-- C10 witness: parsing the same one-input body twice on one instance gives
id 0 first and id 1 second. -/
theorem C10_witness :
    0 ∈ allocIdsList (Parser.mkNew.parse (some (Node.elem ("body") [] [Node.elem ("input") [] []]))).1
    ∧ 1 ∈ allocIdsList ((Parser.mkNew.parse (some (Node.elem ("body") [] [Node.elem ("input") [] []]))).2.parse
        (some (Node.elem ("body") [] [Node.elem ("input") [] []]))).1
    ∧ (0 : Nat) < 1 := by
  have hx : 0 ∈ allocIdsList (Parser.mkNew.parse (some (Node.elem ("body") []
      [Node.elem ("input") [] []]))).1 := by
    simp [Parser.parse, Parser.mkNew, Node.childrenList, parseChildren, inputType, isHeadingTag,
      getAttr, allocIdsList, allocIds]
  have hy : 1 ∈ allocIdsList ((Parser.mkNew.parse (some (Node.elem ("body") []
      [Node.elem ("input") [] []]))).2.parse
        (some (Node.elem ("body") [] [Node.elem ("input") [] []]))).1 := by
    simp [Parser.parse, Parser.mkNew, Node.childrenList, parseChildren, inputType, isHeadingTag,
      getAttr, allocIdsList, allocIds]
  exact ⟨hx, hy,
    C10_second_parse_continues_ids Parser.mkNew
      (some (Node.elem ("body") [] [Node.elem ("input") [] []]))
      (some (Node.elem ("body") [] [Node.elem ("input") [] []])) 0 1 hx hy⟩
